import Mathlib

/-!
Shallow embedding of `src/jma_scraper.py` (class `jma`): station-table
loading (`_load_stations`), station-name resolution, date-interval
decomposition and the three granularity loops of `jma.amedas`.

Modelling conventions:
 * pandas DataFrame cells are `Option String` (`none` = NA); a parsed HTML
   table is its list of data rows (`header=0` consumes the header row).
 * The network is an oracle `Env.fetchPage : String → FetchResult` mapping a
   URL to either an exception (`err`) or the list of tables `pd.read_html`
   returned.
 * Python `datetime.date` values are year/month/day triples; `timedelta`
   arithmetic and comparisons go through the proleptic-Gregorian ordinal
   (`Date.toRD` / `Date.fromRD`), exactly as CPython implements them.
 * Raised `ValueError`s become an `Except JmaError` result; `print` logging
   is not modelled (it carries no data used later).
-/

/-- Python `str.strip()` for the whitespace actually occurring in the
station CSV: ASCII whitespace and the ideographic space U+3000. -/
def isPySpace (c : Char) : Bool :=
  c = ' ' || c = '\t' || c = '\n' || c = '\r' ||
  c = Char.ofNat 11 || c = Char.ofNat 12 || c = Char.ofNat 0x3000

/-- Python `s.strip()`: drop leading and trailing whitespace. -/
def pyStrip (s : String) : String :=
  String.mk (((s.data.dropWhile isPySpace).reverse.dropWhile isPySpace).reverse)

/-- Python `s.zfill(width)`: left-pad with `0` to `width`, keeping a
leading sign in front of the padding. -/
def zfill (width : Nat) (s : String) : String :=
  if width ≤ s.length then s
  else
    let (sign, rest) :=
      match s.data with
      | c :: tl => if c = '+' || c = '-' then ([c], tl) else ([], s.data)
      | [] => ([], s.data)
    String.mk (sign ++ List.replicate (width - s.length) '0' ++ rest)

/-- `f"{n:02d}"` / `strftime("%m")`-style two-digit field. -/
def fmt2 (n : Nat) : String := zfill 2 (toString n)

/-- `f"{n:04d}"` / `strftime("%Y")`-style four-digit field. -/
def fmt4 (n : Nat) : String := zfill 4 (toString n)

/-- `os.path.join` on POSIX. -/
def pathJoin (a b : String) : String := a ++ "/" ++ b

/-! ## Dates (`datetime.date`) -/

/-- A Python `datetime.date`: a proleptic-Gregorian calendar day. -/
structure Date where
  year : Nat
  month : Nat
  day : Nat
deriving DecidableEq, Repr

/-- Day count since 0000-03-01 (Gregorian, civil-from-days form): the
ordinal CPython's `date.toordinal` is an offset of. -/
def Date.toRD (dt : Date) : Nat :=
  let y := if dt.month ≤ 2 then dt.year - 1 else dt.year
  let era := y / 400
  let yoe := y % 400
  let mp := if 2 < dt.month then dt.month - 3 else dt.month + 9
  let doy := (153 * mp + 2) / 5 + dt.day - 1
  let doe := yoe * 365 + yoe / 4 - yoe / 100 + doy
  era * 146097 + doe

/-- Inverse of `Date.toRD` (days-to-civil): CPython's `date.fromordinal`. -/
def Date.fromRD (z : Nat) : Date :=
  let era := z / 146097
  let doe := z % 146097
  let yoe := (doe - doe / 1460 + doe / 36524 - doe / 146096) / 365
  let doy := doe - (365 * yoe + yoe / 4 - yoe / 100)
  let mp := (5 * doy + 2) / 153
  let d := doy - (153 * mp + 2) / 5 + 1
  let m := if mp < 10 then mp + 3 else mp - 9
  ⟨yoe + era * 400 + (if m ≤ 2 then 1 else 0), m, d⟩

/-- Index of a calendar month on the month axis (for the `freq="MS"`
enumeration of `pd.date_range`). -/
def Date.monthIdx (dt : Date) : Nat := 12 * dt.year + (dt.month - 1)

/-- `current.strftime("%Y-%m-%d")`. -/
def fmtYMD (dt : Date) : String :=
  fmt4 dt.year ++ "-" ++ fmt2 dt.month ++ "-" ++ fmt2 dt.day

/-! ## Station table (`jma._load_stations`) -/

/-- One data row of `AMeDAS_list.csv` as `pd.read_csv` delivers it, before
the cleanup applied in `_load_stations`: `block_no` is already through
`astype(str)`. -/
structure RawStation where
  prec_no : Nat
  block_no : String
  name : String
  group_name : String
deriving DecidableEq, Repr

/-- A row of `self.stations` after the cleanup in `_load_stations`. -/
structure StationRow where
  prec_no : Nat
  block_no : String
  name : String
  group_name : String
deriving DecidableEq, Repr

/-- The three column rewrites of `_load_stations`:
`df["name"].str.strip()`, `df["group_name"].str.strip()`,
`df["block_no"].astype(str).str.zfill(4)`. -/
def loadStations (raw : List RawStation) : List StationRow :=
  raw.map fun r =>
    { prec_no := r.prec_no
      block_no := zfill 4 r.block_no
      name := pyStrip r.name
      group_name := pyStrip r.group_name }

/-! ## Station-name resolution (`jma.amedas`, lines 132-154) -/

/-- The exceptions `amedas` can raise: its three explicit `ValueError`s,
and the `AttributeError` the `"all"` branch runs into when its recursive
call hands `datetime.date` objects back to the `end.tzinfo` access of
line 108. -/
inductive JmaError where
  | notUnique
  | unknownStation (station : String)
  | unsupportedGranularity
  | attributeError
deriving DecidableEq, Repr

/-- Python `"(" in s` for a single character. -/
def pyContains (s : String) (c : Char) : Bool := s.data.contains c

/-- Python `s.endswith(c)` for a single character. -/
def pyEndsWith (s : String) (c : Char) : Bool := s.data.getLast? == some c

/-- Python `s[:-1]`. -/
def pyDropLast (s : String) : String := String.mk s.data.dropLast

/-- Python `s.split(c, 1)` at the first occurrence of a single-character
separator: `none` when the separator does not occur. -/
def splitAtChar (c : Char) : List Char → Option (List Char × List Char)
  | [] => none
  | a :: rest =>
      if a = c then some ([], rest)
      else
        match splitAtChar c rest with
        | none => none
        | some (l, r) => some (a :: l, r)

/-- Lines 132-137: split an optional `(region)` qualifier off the station
argument. Returns the (stripped) station name and `some` stripped group
name exactly when the argument contains `(` and ends with `)` (the
separator always occurs in `station[:-1]` under that condition, so the
`none` arm is unreachable). -/
def splitStation (station : String) : String × Option String :=
  if pyContains station '(' && pyEndsWith station ')' then
    let body := pyDropLast station
    match splitAtChar '(' body.data with
    | some (l, r) => (pyStrip (String.mk l), some (pyStrip (String.mk r)))
    | none => (station, none)
  else
    (station, none)

/-- Python truthiness of the `group_name` variable (`None` and `""` are
falsy). -/
def groupTruthy : Option String → Bool
  | none => false
  | some g => !g.isEmpty

/-- Lines 139-154: resolve the station argument against the station table,
returning the `(prec_no, block_no)` of `row.iloc[0]` or the raised
`ValueError`. -/
def lookupStation (stations : List StationRow) (station : String) :
    Except JmaError (Nat × String) :=
  let (sname, g?) := splitStation station
  if groupTruthy g? then
    let rows := stations.filter fun r =>
      r.name == sname && r.group_name == g?.getD ""
    match rows with
    | [] => .error (.unknownStation station)
    | r :: _ => .ok (r.prec_no, r.block_no)
  else
    let rows := stations.filter fun r => r.name == sname
    if 1 < rows.length then .error .notUnique
    else
      match rows with
      | [] => .error (.unknownStation station)
      | r :: _ => .ok (r.prec_no, r.block_no)

/-! ## DataFrames and the network oracle -/

/-- A parsed HTML table after `pd.read_html(..., header=0)`: its data rows;
a cell is `none` for NA. -/
structure Table where
  rows : List (List (Option String))
deriving DecidableEq, Repr

/-- What `pd.read_html(url)` did: raised (`err`) or returned tables. -/
inductive FetchResult where
  | err (msg : String)
  | ok (tables : List Table)

/-- The observable side effects of a run: attempted page fetches and CSV
files written by `df.to_csv`. -/
inductive Event where
  | fetched (url : String)
  | wrote (path : String) (frame : Table)
deriving DecidableEq, Repr

/-- The outside world: what each URL fetch returns. -/
structure Env where
  fetchPage : String → FetchResult

/-- `df.dropna(how="all")`: drop the rows all of whose cells are NA. -/
def dropAllNA (t : Table) : Table :=
  ⟨t.rows.filter fun r => r.any fun c => c.isSome⟩

/-- `pd.concat(frames, ignore_index=True)` for row-aligned frames. -/
def pdConcat (frames : List Table) : Table :=
  ⟨(frames.map Table.rows).flatten⟩

/-- Decimal digit value of a character. -/
def digitVal (c : Char) : Option Nat :=
  if '0' ≤ c ∧ c ≤ '9' then some (c.toNat - 48) else none

/-- Parse a nonnegative decimal integer, as `pd.to_numeric` does on the
day-number strings of the daily table. -/
def parseNat? (s : String) : Option Nat :=
  if s.data.isEmpty then none
  else
    s.data.foldl
      (fun acc c => acc.bind fun n => (digitVal c).map fun d => 10 * n + d)
      (some 0)

/-- `pd.to_numeric(df["day"], errors="coerce").notna()` on the first cell
of a row (the `day` column holds nonnegative integers). -/
def dayOfRow (r : List (Option String)) : Option Nat :=
  (r.headD none).bind parseNat?

/-- Hourly post-processing: `tables[0].dropna(how="all")` then
`df.insert(0, "date", current.strftime("%Y-%m-%d"))`. -/
def hourlyTransform (d : Date) (t : Table) : Table :=
  ⟨(dropAllNA t).rows.map fun r => some (fmtYMD d) :: r⟩

/-- Daily post-processing: drop all-NA rows, rename column 0 to `day`
(positional in this model), keep the rows whose `day` is numeric, and
append the derived `date` column. -/
def dailyTransform (year month : Nat) (t : Table) : Table :=
  let kept := (dropAllNA t).rows.filter fun r => (dayOfRow r).isSome
  ⟨kept.map fun r => r ++ [some (fmtYMD ⟨year, month, (dayOfRow r).getD 0⟩)]⟩

/-! ## URLs and output paths -/

def urlHourly (prec : Nat) (block : String) (d : Date) : String :=
  "https://www.data.jma.go.jp/obd/stats/etrn/view/hourly_s1.php?prec_no=" ++
  toString prec ++ "&block_no=" ++ block ++ "&year=" ++ toString d.year ++
  "&month=" ++ toString d.month ++ "&day=" ++ toString d.day ++ "&view="

def urlDaily (prec : Nat) (block : String) (year month : Nat) : String :=
  "https://www.data.jma.go.jp/stats/etrn/view/daily_s1.php?prec_no=" ++
  toString prec ++ "&block_no=" ++ block ++ "&year=" ++ toString year ++
  "&month=" ++ fmt2 month ++ "&day=01&view=p1"

def urlMonthly (prec : Nat) (block : String) (year : Nat) : String :=
  "https://www.data.jma.go.jp/stats/etrn/view/monthly_s1.php?prec_no=" ++
  toString prec ++ "&block_no=" ++ block ++ "&year=" ++ toString year ++
  "&month=01&day=01&view=p1"

/-- `os.path.join(out_dir, "%Y", "%m")` and `f"{station}_{%Y%m%d}.csv"`. -/
def hourlyPath (out_dir station : String) (d : Date) : String :=
  pathJoin (pathJoin (pathJoin out_dir (fmt4 d.year)) (fmt2 d.month))
    (station ++ "_" ++ fmt4 d.year ++ fmt2 d.month ++ fmt2 d.day ++ ".csv")

/-- `os.path.join(out_dir, f"{year:04d}")` and `f"{station}_{%Y%m}.csv"`. -/
def dailyPath (out_dir station : String) (year month : Nat) : String :=
  pathJoin (pathJoin out_dir (fmt4 year))
    (station ++ "_" ++ fmt4 year ++ fmt2 month ++ ".csv")

/-- `os.path.join(out_dir, f"{station}_{%Y}.csv")`. -/
def monthlyPath (out_dir station : String) (year : Nat) : String :=
  pathJoin out_dir (station ++ "_" ++ fmt4 year ++ ".csv")

/-! ## The three granularity loops (`jma.amedas`, lines 156-264)

Each loop iteration fetches one URL; on an exception it logs and moves on,
otherwise it transforms `tables[0]`, appends the frame and writes a CSV.
The loop variables are the day ordinal (hourly), the month index (daily)
and the year (monthly). -/

/-- One hourly iteration, at day ordinal `n`. -/
def hourlyStep (env : Env) (prec : Nat) (block station out_dir : String)
    (n : Nat) : List Event × Option Table :=
  let d := Date.fromRD n
  let url := urlHourly prec block d
  match env.fetchPage url with
  | .err _ => ([.fetched url], none)
  | .ok [] => ([.fetched url], none)
  | .ok (t :: _) =>
      let df := hourlyTransform d t
      ([.fetched url, .wrote (hourlyPath out_dir station d) df], some df)

/-- One daily iteration, at month index `mi` (year `mi / 12`, month
`mi % 12 + 1`). -/
def dailyStep (env : Env) (prec : Nat) (block station out_dir : String)
    (mi : Nat) : List Event × Option Table :=
  let y := mi / 12
  let m := mi % 12 + 1
  let url := urlDaily prec block y m
  match env.fetchPage url with
  | .err _ => ([.fetched url], none)
  | .ok [] => ([.fetched url], none)
  | .ok (t :: _) =>
      let df := dailyTransform y m t
      ([.fetched url, .wrote (dailyPath out_dir station y m) df], some df)

/-- One monthly iteration, at year `y`. -/
def monthlyStep (env : Env) (prec : Nat) (block station out_dir : String)
    (y : Nat) : List Event × Option Table :=
  let url := urlMonthly prec block y
  match env.fetchPage url with
  | .err _ => ([.fetched url], none)
  | .ok [] => ([.fetched url], none)
  | .ok (t :: _) =>
      let df := dropAllNA t
      ([.fetched url, .wrote (monthlyPath out_dir station y) df], some df)

/-- The `for current in months/years:` loops: run the step at each index,
accumulating events and appended frames. -/
def runSteps (step : Nat → List Event × Option Table) :
    List Nat → List Event × List Table
  | [] => ([], [])
  | n :: rest =>
      ((step n).1 ++ (runSteps step rest).1,
       (step n).2.toList ++ (runSteps step rest).2)

/-- The hourly `while current <= end:` loop over day ordinals
(`current += timedelta(days=1)` is ordinal successor). -/
def hourlyLoop (step : Nat → List Event × Option Table)
    (cur endRD : Nat) : List Event × List Table :=
  if _h : cur ≤ endRD then
    ((step cur).1 ++ (hourlyLoop step (cur + 1) endRD).1,
     (step cur).2.toList ++ (hourlyLoop step (cur + 1) endRD).2)
  else ([], [])
termination_by endRD + 1 - cur
decreasing_by omega

/-- `pd.date_range(start=start_month, end=end_month, freq="MS")` as month
indices, and likewise `freq="YS"` as years: the inclusive ascending range
(empty when start is past end). -/
def inclRange (s e : Nat) : List Nat := List.range' s (e + 1 - s)

/-! ## `jma.amedas` -/

/-- The outcome of one `amedas` call: its side effects plus the returned
DataFrame or the raised `ValueError`. -/
structure RunResult where
  events : List Event
  result : Except JmaError Table
deriving Repr

/-- `jma.amedas` for a concrete (non-`"all"`) granularity, with `start`
and `end` already resolved to JST dates: station lookup (lines 132-154),
then the granularity loop, then `pd.concat(frames)` or an empty frame
(lines 269-273); an unrecognised granularity raises after the lookup
(lines 266-267). -/
def amedasCore (env : Env) (stations : List StationRow) (station : String)
    (start end_ : Date) (granularity : String) (out_dir : String) :
    RunResult :=
  match lookupStation stations station with
  | .error e => ⟨[], .error e⟩
  | .ok (prec, block) =>
    if granularity = "hourly" then
      let run :=
        hourlyLoop (hourlyStep env prec block station out_dir)
          start.toRD end_.toRD
      ⟨run.1, .ok (if run.2.isEmpty then ⟨[]⟩ else pdConcat run.2)⟩
    else if granularity = "daily" then
      let run :=
        runSteps (dailyStep env prec block station out_dir)
          (inclRange start.monthIdx end_.monthIdx)
      ⟨run.1, .ok (if run.2.isEmpty then ⟨[]⟩ else pdConcat run.2)⟩
    else if granularity = "monthly" then
      let run :=
        runSteps (monthlyStep env prec block station out_dir)
          (inclRange start.year end_.year)
      ⟨run.1, .ok (if run.2.isEmpty then ⟨[]⟩ else pdConcat run.2)⟩
    else ⟨[], .error .unsupportedGranularity⟩

/-- A Python `datetime.datetime`: wall-clock date and minutes past
midnight, plus the `tzinfo` UTC offset in minutes (`none` = naive). -/
structure PyDateTime where
  date : Date
  minute : Nat
  tzOffsetMin : Option Int
deriving Repr

/-- The UTC offset of `JST = timezone(timedelta(hours=9))`, in minutes. -/
def jstOffsetMin : Int := 540

/-- `(dt.astimezone(JST) if dt.tzinfo else dt.replace(tzinfo=JST)).date()`:
a naive datetime keeps its wall-clock date; an aware one is converted to
the JST instant and its date taken. -/
def toJSTDate (dt : PyDateTime) : Date :=
  match dt.tzOffsetMin with
  | none => dt.date
  | some off =>
      let total : Int :=
        (dt.date.toRD : Int) * 1440 + (dt.minute : Int) - off + jstOffsetMin
      Date.fromRD (total / 1440).toNat

/-- A value arriving as the `start`/`end` parameter of `jma.amedas`:
external callers pass a `datetime.datetime` (or `None`), but the
recursive calls of the `"all"` branch (line 127) pass the
already-normalized `datetime.date` objects. -/
inductive PyDateArg where
  | dt (d : PyDateTime)
  | date (d : Date)
deriving Repr

/-- Lines 106-109 (and 113-118) applied to one supplied argument:
`(x.astimezone(JST) if x.tzinfo else x.replace(tzinfo=JST)).date()`.
On a `datetime` this is `toJSTDate`; on a plain `date` the very first
step, the `x.tzinfo` attribute access, raises `AttributeError`
(`datetime.date` has no `tzinfo` attribute). -/
def normalizeArg : PyDateArg → Except JmaError Date
  | .dt d => .ok (toJSTDate d)
  | .date _ => .error .attributeError

/-- One recursive call `self.amedas(station, start, end, g, out_dir)`
made by the `"all"` branch, `g` being one of `"hourly"`, `"daily"`,
`"monthly"`: the callee first re-runs the normalization of lines 106-120
on the arguments it received (`end` first, then `start`), and — its
granularity never being `"all"` — then runs the matching granularity
code, which is `amedasCore`. `nowJST` matters only when an argument is
absent. -/
def amedasRecall (env : Env) (stations : List StationRow) (nowJST : Date)
    (station : String) (start? end? : Option PyDateArg)
    (g out_dir : String) : RunResult :=
  match (match end? with
         | some e => normalizeArg e
         | none => Except.ok (Date.fromRD (nowJST.toRD - 1))) with
  | .error ex => ⟨[], .error ex⟩
  | .ok endD =>
    match (match start? with
           | some s => normalizeArg s
           | none => Except.ok endD) with
    | .error ex => ⟨[], .error ex⟩
    | .ok startD => amedasCore env stations station startD endD g out_dir

/-- `jma.amedas` with `start`/`end` already resolved to dates. The
`"all"` branch (lines 124-130) loops over the three concrete
granularities, calling the full function recursively with the resolved
`date` objects as `start`/`end`; each callee re-enters the normalization
of lines 106-120, where the `end.tzinfo` access raises `AttributeError`
on a `date`, so the first recursive call raises before any fetch and the
uncaught exception propagates (the append/concatenate code below line
127 is unreachable, but is written out as in the source). Any other
granularity runs `amedasCore`. `nowJST` is irrelevant in the recursive
calls since both arguments are supplied, so the resolved `end_` stands
in for it. -/
def amedas (env : Env) (stations : List StationRow) (station : String)
    (start end_ : Date) (granularity : String) (out_dir : String) :
    RunResult :=
  if granularity = "all" then
    let rh := amedasRecall env stations end_ station
      (some (.date start)) (some (.date end_)) "hourly" out_dir
    match rh.result with
    | .error e => ⟨rh.events, .error e⟩
    | .ok th =>
      let rd := amedasRecall env stations end_ station
        (some (.date start)) (some (.date end_)) "daily" out_dir
      match rd.result with
      | .error e => ⟨rh.events ++ rd.events, .error e⟩
      | .ok td =>
        let rm := amedasRecall env stations end_ station
          (some (.date start)) (some (.date end_)) "monthly" out_dir
        match rm.result with
        | .error e => ⟨rh.events ++ rd.events ++ rm.events, .error e⟩
        | .ok tm =>
          let dfs := [th, td, tm].filter fun t => !t.rows.isEmpty
          ⟨rh.events ++ rd.events ++ rm.events,
           .ok (if dfs.isEmpty then ⟨[]⟩ else pdConcat dfs)⟩
  else amedasCore env stations station start end_ granularity out_dir

/-! ## `datetime` arguments and their defaulting (lines 106-120) -/

/-- Lines 106-111: `end` defaults to
`(datetime.now(JST) - timedelta(days=1)).date()`; `nowJST` is the current
JST wall-clock date. -/
def resolveEnd (nowJST : Date) : Option PyDateTime → Date
  | some e => toJSTDate e
  | none => Date.fromRD (nowJST.toRD - 1)

/-- Lines 113-120: `start` defaults to `end - timedelta(days=0)`, i.e. the
(already resolved) `end` date itself. -/
def resolveStart (endD : Date) : Option PyDateTime → Date
  | some s => toJSTDate s
  | none => endD

/-- The full `amedas` entry: resolve `end`, then `start`, then run. -/
def amedasFull (env : Env) (stations : List StationRow) (nowJST : Date)
    (station : String) (start? end? : Option PyDateTime)
    (granularity : String) (out_dir : String) : RunResult :=
  let endD := resolveEnd nowJST end?
  let startD := resolveStart endD start?
  amedas env stations station startD endD granularity out_dir

/-! ## Derived observations used in the specification theorems -/

/-- The URL of a fetch attempt. -/
def eventUrl : Event → Option String
  | .fetched url => some url
  | .wrote _ _ => none

/-- The frame of a CSV write. -/
def wroteFrame : Event → Option Table
  | .wrote _ frame => some frame
  | .fetched _ => none

/-- The URLs a run attempted to fetch, in order. -/
def RunResult.fetchedUrls (r : RunResult) : List String :=
  r.events.filterMap eventUrl

/-- The frames a run wrote to CSV files, in order. -/
def RunResult.writtenFrames (r : RunResult) : List Table :=
  r.events.filterMap wroteFrame

/-- The events of the steps at the given indices, in order. -/
def stepsEvents (step : Nat → List Event × Option Table)
    (l : List Nat) : List Event :=
  (l.map fun n => (step n).1).flatten

/-- The frames appended by the steps at the given indices, in order. -/
def stepsFrames (step : Nat → List Event × Option Table)
    (l : List Nat) : List Table :=
  l.filterMap fun n => (step n).2

/-- The row predicate the lookup filters `self.stations` with: name
equality, plus group-name equality when a truthy qualifier was supplied. -/
def matchPred (station : String) (r : StationRow) : Bool :=
  let p := splitStation station
  if groupTruthy p.2 then r.name == p.1 && r.group_name == p.2.getD ""
  else r.name == p.1

/-! ## Loop structure lemmas -/

theorem runSteps_eq (step : Nat → List Event × Option Table) :
    ∀ l, runSteps step l = (stepsEvents step l, stepsFrames step l)
  | [] => rfl
  | n :: rest => by
      have ih := runSteps_eq step rest
      simp only [runSteps, ih, stepsEvents, stepsFrames, List.map_cons,
        List.flatten_cons, List.filterMap_cons]
      cases h : (step n).2 <;> simp [h]

theorem hourlyLoop_eq_aux (step : Nat → List Event × Option Table) :
    ∀ fuel cur endRD, endRD + 1 - cur = fuel →
      hourlyLoop step cur endRD = runSteps step (List.range' cur fuel) := by
  intro fuel
  induction fuel with
  | zero =>
      intro cur endRD h
      rw [hourlyLoop, dif_neg (by omega)]
      rfl
  | succ k ih =>
      intro cur endRD h
      rw [hourlyLoop, dif_pos (by omega : cur ≤ endRD), List.range'_succ]
      rw [ih (cur + 1) endRD (by omega)]
      rfl

/-- The hourly `while` loop performs exactly the steps at the day ordinals
of the inclusive range. -/
theorem hourlyLoop_eq_runSteps (step : Nat → List Event × Option Table)
    (cur endRD : Nat) :
    hourlyLoop step cur endRD = runSteps step (inclRange cur endRD) :=
  hourlyLoop_eq_aux step (endRD + 1 - cur) cur endRD rfl

theorem stepsEvents_append (step : Nat → List Event × Option Table)
    (l₁ l₂ : List Nat) :
    stepsEvents step (l₁ ++ l₂) = stepsEvents step l₁ ++ stepsEvents step l₂ := by
  simp [stepsEvents]

theorem stepsFrames_append (step : Nat → List Event × Option Table)
    (l₁ l₂ : List Nat) :
    stepsFrames step (l₁ ++ l₂) = stepsFrames step l₁ ++ stepsFrames step l₂ := by
  simp [stepsFrames]

theorem hourlyStep_urls (env : Env) (p : Nat) (b st dir : String) (n : Nat) :
    ((hourlyStep env p b st dir n).1).filterMap eventUrl
      = [urlHourly p b (Date.fromRD n)] := by
  simp only [hourlyStep]
  cases h : env.fetchPage (urlHourly p b (Date.fromRD n)) with
  | err m => simp [eventUrl]
  | ok ts => cases ts <;> simp [eventUrl]

theorem dailyStep_urls (env : Env) (p : Nat) (b st dir : String) (mi : Nat) :
    ((dailyStep env p b st dir mi).1).filterMap eventUrl
      = [urlDaily p b (mi / 12) (mi % 12 + 1)] := by
  simp only [dailyStep]
  cases h : env.fetchPage (urlDaily p b (mi / 12) (mi % 12 + 1)) with
  | err m => simp [eventUrl]
  | ok ts => cases ts <;> simp [eventUrl]

theorem monthlyStep_urls (env : Env) (p : Nat) (b st dir : String) (y : Nat) :
    ((monthlyStep env p b st dir y).1).filterMap eventUrl
      = [urlMonthly p b y] := by
  simp only [monthlyStep]
  cases h : env.fetchPage (urlMonthly p b y) with
  | err m => simp [eventUrl]
  | ok ts => cases ts <;> simp [eventUrl]

theorem hourlyStep_writes (env : Env) (p : Nat) (b st dir : String) (n : Nat) :
    ((hourlyStep env p b st dir n).1).filterMap wroteFrame
      = (hourlyStep env p b st dir n).2.toList := by
  simp only [hourlyStep]
  cases h : env.fetchPage (urlHourly p b (Date.fromRD n)) with
  | err m => simp [wroteFrame]
  | ok ts => cases ts <;> simp [wroteFrame]

theorem dailyStep_writes (env : Env) (p : Nat) (b st dir : String) (mi : Nat) :
    ((dailyStep env p b st dir mi).1).filterMap wroteFrame
      = (dailyStep env p b st dir mi).2.toList := by
  simp only [dailyStep]
  cases h : env.fetchPage (urlDaily p b (mi / 12) (mi % 12 + 1)) with
  | err m => simp [wroteFrame]
  | ok ts => cases ts <;> simp [wroteFrame]

theorem monthlyStep_writes (env : Env) (p : Nat) (b st dir : String) (y : Nat) :
    ((monthlyStep env p b st dir y).1).filterMap wroteFrame
      = (monthlyStep env p b st dir y).2.toList := by
  simp only [monthlyStep]
  cases h : env.fetchPage (urlMonthly p b y) with
  | err m => simp [wroteFrame]
  | ok ts => cases ts <;> simp [wroteFrame]

theorem hourlyStep_wrote_shape (env : Env) (p : Nat) (b st dir : String)
    (n : Nat) (path : String) (df : Table)
    (h : Event.wrote path df ∈ (hourlyStep env p b st dir n).1) :
    path = hourlyPath dir st (Date.fromRD n) ∧
    ∃ t rest, env.fetchPage (urlHourly p b (Date.fromRD n)) = .ok (t :: rest)
      ∧ df = hourlyTransform (Date.fromRD n) t := by
  revert h
  simp only [hourlyStep]
  cases hf : env.fetchPage (urlHourly p b (Date.fromRD n)) with
  | err m => intro h; simp at h
  | ok ts =>
      cases ts with
      | nil => intro h; simp at h
      | cons t rest =>
          intro h
          simp only [List.mem_cons, List.mem_singleton, List.not_mem_nil,
            or_false] at h
          rcases h with h | h
          · exact absurd h (by simp)
          · obtain ⟨hp, hd⟩ := Event.wrote.inj h
            exact ⟨hp, t, rest, rfl, hd⟩

theorem dailyStep_wrote_shape (env : Env) (p : Nat) (b st dir : String)
    (mi : Nat) (path : String) (df : Table)
    (h : Event.wrote path df ∈ (dailyStep env p b st dir mi).1) :
    path = dailyPath dir st (mi / 12) (mi % 12 + 1) ∧
    ∃ t rest,
      env.fetchPage (urlDaily p b (mi / 12) (mi % 12 + 1)) = .ok (t :: rest)
      ∧ df = dailyTransform (mi / 12) (mi % 12 + 1) t := by
  revert h
  simp only [dailyStep]
  cases hf : env.fetchPage (urlDaily p b (mi / 12) (mi % 12 + 1)) with
  | err m => intro h; simp at h
  | ok ts =>
      cases ts with
      | nil => intro h; simp at h
      | cons t rest =>
          intro h
          simp only [List.mem_cons, List.mem_singleton, List.not_mem_nil,
            or_false] at h
          rcases h with h | h
          · exact absurd h (by simp)
          · obtain ⟨hp, hd⟩ := Event.wrote.inj h
            exact ⟨hp, t, rest, rfl, hd⟩

theorem monthlyStep_wrote_shape (env : Env) (p : Nat) (b st dir : String)
    (y : Nat) (path : String) (df : Table)
    (h : Event.wrote path df ∈ (monthlyStep env p b st dir y).1) :
    path = monthlyPath dir st y ∧
    ∃ t rest, env.fetchPage (urlMonthly p b y) = .ok (t :: rest)
      ∧ df = dropAllNA t := by
  revert h
  simp only [monthlyStep]
  cases hf : env.fetchPage (urlMonthly p b y) with
  | err m => intro h; simp at h
  | ok ts =>
      cases ts with
      | nil => intro h; simp at h
      | cons t rest =>
          intro h
          simp only [List.mem_cons, List.mem_singleton, List.not_mem_nil,
            or_false] at h
          rcases h with h | h
          · exact absurd h (by simp)
          · obtain ⟨hp, hd⟩ := Event.wrote.inj h
            exact ⟨hp, t, rest, rfl, hd⟩

/-! ## `amedasCore` unfolding lemmas -/

theorem amedasCore_lookup_error (env : Env) (stations : List StationRow)
    (station : String) (start end_ : Date) (g dir : String) (e : JmaError)
    (h : lookupStation stations station = .error e) :
    amedasCore env stations station start end_ g dir = ⟨[], .error e⟩ := by
  unfold amedasCore
  rw [h]

theorem amedasCore_hourly (env : Env) (stations : List StationRow)
    (station : String) (start end_ : Date) (dir : String) (p : Nat)
    (b : String) (h : lookupStation stations station = .ok (p, b)) :
    amedasCore env stations station start end_ "hourly" dir =
      ⟨stepsEvents (hourlyStep env p b station dir)
         (inclRange start.toRD end_.toRD),
       .ok (if (stepsFrames (hourlyStep env p b station dir)
                  (inclRange start.toRD end_.toRD)).isEmpty then ⟨[]⟩
            else pdConcat (stepsFrames (hourlyStep env p b station dir)
                  (inclRange start.toRD end_.toRD)))⟩ := by
  unfold amedasCore
  rw [h]
  simp [hourlyLoop_eq_runSteps, runSteps_eq]

theorem amedasCore_daily (env : Env) (stations : List StationRow)
    (station : String) (start end_ : Date) (dir : String) (p : Nat)
    (b : String) (h : lookupStation stations station = .ok (p, b)) :
    amedasCore env stations station start end_ "daily" dir =
      ⟨stepsEvents (dailyStep env p b station dir)
         (inclRange start.monthIdx end_.monthIdx),
       .ok (if (stepsFrames (dailyStep env p b station dir)
                  (inclRange start.monthIdx end_.monthIdx)).isEmpty then ⟨[]⟩
            else pdConcat (stepsFrames (dailyStep env p b station dir)
                  (inclRange start.monthIdx end_.monthIdx)))⟩ := by
  unfold amedasCore
  rw [h]
  simp [runSteps_eq]

theorem amedasCore_monthly (env : Env) (stations : List StationRow)
    (station : String) (start end_ : Date) (dir : String) (p : Nat)
    (b : String) (h : lookupStation stations station = .ok (p, b)) :
    amedasCore env stations station start end_ "monthly" dir =
      ⟨stepsEvents (monthlyStep env p b station dir)
         (inclRange start.year end_.year),
       .ok (if (stepsFrames (monthlyStep env p b station dir)
                  (inclRange start.year end_.year)).isEmpty then ⟨[]⟩
            else pdConcat (stepsFrames (monthlyStep env p b station dir)
                  (inclRange start.year end_.year)))⟩ := by
  unfold amedasCore
  rw [h]
  simp [runSteps_eq]

theorem amedas_not_all (env : Env) (stations : List StationRow)
    (station : String) (start end_ : Date) (g dir : String)
    (h : g ≠ "all") :
    amedas env stations station start end_ g dir =
      amedasCore env stations station start end_ g dir := by
  unfold amedas
  rw [if_neg h]

/-- Splitting an inclusive range at an interior index. -/
theorem inclRange_split (s n e : Nat) (h₁ : s ≤ n) (h₂ : n ≤ e) :
    inclRange s e = List.range' s (n - s) ++ n :: List.range' (n + 1) (e - n) := by
  unfold inclRange
  have h4 : e + 1 - s = ((e - n) + 1) + (n - s) := by omega
  rw [h4, ← List.range'_append_1]
  have h5 : s + (n - s) = n := by omega
  rw [h5, List.range'_succ]

theorem stepsEvents_cons (step : Nat → List Event × Option Table)
    (n : Nat) (rest : List Nat) :
    stepsEvents step (n :: rest) = (step n).1 ++ stepsEvents step rest := by
  simp [stepsEvents]

theorem stepsFrames_cons (step : Nat → List Event × Option Table)
    (n : Nat) (rest : List Nat) :
    stepsFrames step (n :: rest) = (step n).2.toList ++ stepsFrames step rest := by
  cases h : (step n).2 <;> simp [stepsFrames, List.filterMap_cons, h]

theorem mem_stepsEvents (step : Nat → List Event × Option Table)
    (l : List Nat) (e : Event) :
    e ∈ stepsEvents step l ↔ ∃ n ∈ l, e ∈ (step n).1 := by
  simp [stepsEvents, List.mem_flatten]

/-- The fetch events of a step sequence in URL order. -/
theorem stepsEvents_urls (step : Nat → List Event × Option Table)
    (url : Nat → String)
    (hstep : ∀ n, ((step n).1).filterMap eventUrl = [url n]) :
    ∀ l, (stepsEvents step l).filterMap eventUrl = l.map url
  | [] => rfl
  | n :: rest => by
      rw [stepsEvents_cons, List.filterMap_append, hstep n,
        stepsEvents_urls step url hstep rest, List.map_cons,
        List.singleton_append]

/-- The write events of a step sequence carry exactly the appended
frames. -/
theorem stepsEvents_writes (step : Nat → List Event × Option Table)
    (hstep : ∀ n, ((step n).1).filterMap wroteFrame = (step n).2.toList) :
    ∀ l, (stepsEvents step l).filterMap wroteFrame = stepsFrames step l
  | [] => rfl
  | n :: rest => by
      rw [stepsEvents_cons, List.filterMap_append, hstep n, stepsFrames_cons,
        stepsEvents_writes step hstep rest]

/-- `pd.concat(frames) if frames else pd.DataFrame()` equals the plain
concatenation (concatenating nothing gives the empty frame). -/
theorem concat_or_empty (frames : List Table) :
    (if frames.isEmpty then (⟨[]⟩ : Table) else pdConcat frames)
      = pdConcat frames := by
  cases frames <;> simp [pdConcat]

theorem head?_filter_eq_find? {α : Type} (pred : α → Bool) :
    ∀ l : List α, (l.filter pred).head? = l.find? pred
  | [] => rfl
  | a :: l => by
      rw [List.filter_cons, List.find?_cons]
      by_cases h : pred a
      · simp [h]
      · simp [h, head?_filter_eq_find? pred l]

/-- The padding `zfill w` never yields fewer than `w` characters. -/
theorem zfill_length (w : Nat) (s : String) : w ≤ (zfill w s).length := by
  unfold zfill
  by_cases h : w ≤ s.length
  · rw [if_pos h]; exact h
  · rw [if_neg h]
    have hlen : s.length = s.data.length := rfl
    rw [hlen] at h
    rcases hd : s.data with _ | ⟨c, tl⟩ <;> rw [hd] at h
    · simp only [String.length_mk, List.length_append, List.length_replicate,
        List.length_nil, hlen, hd]
      simp at h
      omega
    · by_cases hc : (c = '+' || c = '-') = true
      · simp only [hc, if_true, String.length_mk, List.length_append,
          List.length_replicate, List.length_cons, List.length_nil, hlen, hd]
        simp only [List.length_cons] at h
        omega
      · simp only [Bool.not_eq_true] at hc
        simp only [hc, Bool.false_eq_true, if_false, String.length_mk,
          List.length_append, List.length_replicate, hlen, hd]
        simp only [List.length_cons] at h
        omega

/-- A successful lookup returns the `prec_no`/`block_no` of the first row
matching the (parsed) station argument. -/
theorem lookupStation_find? (stations : List StationRow) (station : String)
    (p : Nat) (b : String)
    (h : lookupStation stations station = .ok (p, b)) :
    ∃ r, stations.find? (matchPred station) = some r
      ∧ r.prec_no = p ∧ r.block_no = b := by
  rcases hs : splitStation station with ⟨sname, g?⟩
  have hpred : matchPred station = fun r =>
      if groupTruthy g? then r.name == sname && r.group_name == g?.getD ""
      else r.name == sname := by
    funext r
    simp [matchPred, hs]
  rw [← head?_filter_eq_find?]
  simp only [lookupStation, hs] at h
  by_cases hg : groupTruthy g? = true
  · simp only [hg, if_true] at h
    rcases hr : stations.filter
        (fun r => r.name == sname && r.group_name == g?.getD "") with _ | ⟨r, rest⟩
    · rw [hr] at h; simp at h
    · rw [hr] at h
      simp only [Except.ok.injEq, Prod.mk.injEq] at h
      refine ⟨r, ?_, h.1.symm ▸ rfl, h.2.symm ▸ rfl⟩
      rw [hpred]
      simp only [hg, if_true, hr, List.head?_cons]
  · simp only [hg] at h
    simp only [Bool.false_eq_true, if_false] at h
    by_cases hlen : 1 < (stations.filter fun r => r.name == sname).length
    · rw [if_pos hlen] at h; simp at h
    · rw [if_neg hlen] at h
      rcases hr : stations.filter (fun r => r.name == sname) with _ | ⟨r, rest⟩
      · rw [hr] at h; simp at h
      · rw [hr] at h
        simp only [Except.ok.injEq, Prod.mk.injEq] at h
        refine ⟨r, ?_, h.1.symm ▸ rfl, h.2.symm ▸ rfl⟩
        rw [hpred]
        simp only [hg, Bool.false_eq_true, if_false, hr, List.head?_cons]

/-- A successful lookup returns the codes of some row of the table. -/
theorem lookupStation_ok_mem (stations : List StationRow) (station : String)
    (p : Nat) (b : String)
    (h : lookupStation stations station = .ok (p, b)) :
    ∃ r ∈ stations, r.prec_no = p ∧ r.block_no = b := by
  obtain ⟨r, hf, hp, hb⟩ := lookupStation_find? stations station p b h
  exact ⟨r, List.mem_of_find?_eq_some hf, hp, hb⟩

/-- `matchPred` agrees with the filter the applicable lookup branch uses. -/
theorem matchPred_eq (station : String) (sname : String) (g? : Option String)
    (hs : splitStation station = (sname, g?)) :
    matchPred station = fun r =>
      if groupTruthy g? then r.name == sname && r.group_name == g?.getD ""
      else r.name == sname := by
  funext r
  simp [matchPred, hs]

/-- No row matches: the lookup raises `Unknown station`. -/
theorem lookupStation_no_match (stations : List StationRow) (station : String)
    (h : stations.filter (matchPred station) = []) :
    lookupStation stations station = .error (.unknownStation station) := by
  rcases hs : splitStation station with ⟨sname, g?⟩
  rw [matchPred_eq station sname g? hs] at h
  simp only [lookupStation, hs]
  by_cases hg : groupTruthy g? = true
  · simp only [hg, if_true] at h ⊢
    rw [h]
  · simp only [hg, Bool.false_eq_true, if_false] at h ⊢
    rw [h]
    simp

/-- More than one row matches an unqualified name: the lookup raises the
disambiguation `ValueError`. -/
theorem lookupStation_ambiguous (stations : List StationRow) (station : String)
    (hq : groupTruthy (splitStation station).2 = false)
    (h : 1 < (stations.filter (matchPred station)).length) :
    lookupStation stations station = .error .notUnique := by
  rcases hs : splitStation station with ⟨sname, g?⟩
  rw [matchPred_eq station sname g? hs] at h
  rw [hs] at hq
  simp only [lookupStation, hs]
  simp only [hq] at h ⊢
  simp only [Bool.false_eq_true, if_false] at h ⊢
  rw [if_pos h]

/-- A qualified lookup never raises on ambiguity: with several matching
rows it takes the first. -/
theorem lookupStation_qualified_first (stations : List StationRow)
    (station : String) (r : StationRow) (rest : List StationRow)
    (hq : groupTruthy (splitStation station).2 = true)
    (h : stations.filter (matchPred station) = r :: rest) :
    lookupStation stations station = .ok (r.prec_no, r.block_no) := by
  rcases hs : splitStation station with ⟨sname, g?⟩
  rw [matchPred_eq station sname g? hs] at h
  rw [hs] at hq
  simp only [lookupStation, hs]
  simp only [hq, if_true] at h ⊢
  rw [h]

/-- A failing hourly fetch yields one fetch event, no write and no frame. -/
theorem hourlyStep_err (env : Env) (p : Nat) (b st dir : String) (n : Nat)
    (msg : String)
    (hf : env.fetchPage (urlHourly p b (Date.fromRD n)) = .err msg) :
    hourlyStep env p b st dir n
      = ([.fetched (urlHourly p b (Date.fromRD n))], none) := by
  simp [hourlyStep, hf]

theorem dailyStep_err (env : Env) (p : Nat) (b st dir : String) (mi : Nat)
    (msg : String)
    (hf : env.fetchPage (urlDaily p b (mi / 12) (mi % 12 + 1)) = .err msg) :
    dailyStep env p b st dir mi
      = ([.fetched (urlDaily p b (mi / 12) (mi % 12 + 1))], none) := by
  simp [dailyStep, hf]

theorem monthlyStep_err (env : Env) (p : Nat) (b st dir : String) (y : Nat)
    (msg : String) (hf : env.fetchPage (urlMonthly p b y) = .err msg) :
    monthlyStep env p b st dir y = ([.fetched (urlMonthly p b y)], none) := by
  simp [monthlyStep, hf]

/-- A successful hourly fetch yields the fetch event, then the CSV write
at the step's path with the transformed first table, and appends that
frame. -/
theorem hourlyStep_ok (env : Env) (p : Nat) (b st dir : String) (n : Nat)
    (t : Table) (rest : List Table)
    (hf : env.fetchPage (urlHourly p b (Date.fromRD n)) = .ok (t :: rest)) :
    hourlyStep env p b st dir n
      = ([.fetched (urlHourly p b (Date.fromRD n)),
          .wrote (hourlyPath dir st (Date.fromRD n))
            (hourlyTransform (Date.fromRD n) t)],
         some (hourlyTransform (Date.fromRD n) t)) := by
  simp [hourlyStep, hf]

theorem dailyStep_ok (env : Env) (p : Nat) (b st dir : String) (mi : Nat)
    (t : Table) (rest : List Table)
    (hf : env.fetchPage (urlDaily p b (mi / 12) (mi % 12 + 1))
      = .ok (t :: rest)) :
    dailyStep env p b st dir mi
      = ([.fetched (urlDaily p b (mi / 12) (mi % 12 + 1)),
          .wrote (dailyPath dir st (mi / 12) (mi % 12 + 1))
            (dailyTransform (mi / 12) (mi % 12 + 1) t)],
         some (dailyTransform (mi / 12) (mi % 12 + 1) t)) := by
  simp [dailyStep, hf]

theorem monthlyStep_ok (env : Env) (p : Nat) (b st dir : String) (y : Nat)
    (t : Table) (rest : List Table)
    (hf : env.fetchPage (urlMonthly p b y) = .ok (t :: rest)) :
    monthlyStep env p b st dir y
      = ([.fetched (urlMonthly p b y),
          .wrote (monthlyPath dir st y) (dropAllNA t)],
         some (dropAllNA t)) := by
  simp [monthlyStep, hf]

/-! ## The claims -/

/-- C3: with granularity `"hourly"`, `amedas` attempts exactly one remote
fetch per calendar day of the closed interval `[start, end]`, in strictly
increasing day order, each URL built from the station codes and that day's
year, month and day; no day outside the interval is fetched, and when
`start > end` nothing at all is fetched. -/
theorem hourly_one_fetch_per_day (env : Env) (stations : List StationRow)
    (station : String) (start end_ : Date) (dir : String) (p : Nat)
    (b : String) (h : lookupStation stations station = .ok (p, b)) :
    (amedasCore env stations station start end_ "hourly" dir).fetchedUrls
      = (List.range' start.toRD (end_.toRD + 1 - start.toRD)).map
          (fun n => urlHourly p b (Date.fromRD n)) ∧
    (end_.toRD < start.toRD →
      (amedasCore env stations station start end_ "hourly" dir).events
        = []) := by
  rw [amedasCore_hourly env stations station start end_ dir p b h]
  constructor
  · simp only [RunResult.fetchedUrls]
    rw [stepsEvents_urls _ _ (fun n => hourlyStep_urls env p b station dir n)]
    rfl
  · intro hlt
    show stepsEvents _ _ = []
    have h0 : end_.toRD + 1 - start.toRD = 0 := by omega
    simp [inclRange, h0, stepsEvents]

/-- C4: with granularity `"daily"`, `amedas` fetches exactly one page per
calendar month from the month containing `start` through the month
containing `end`, in increasing order, and with `"monthly"` exactly one
page per year from `start.year` through `end.year`; for calendar dates the
month index decomposes back into the date's own year and month. -/
theorem daily_monthly_fetch_ranges (env : Env) (stations : List StationRow)
    (station : String) (start end_ : Date) (dir : String) (p : Nat)
    (b : String) (h : lookupStation stations station = .ok (p, b)) :
    (amedasCore env stations station start end_ "daily" dir).fetchedUrls
      = (List.range' start.monthIdx (end_.monthIdx + 1 - start.monthIdx)).map
          (fun mi => urlDaily p b (mi / 12) (mi % 12 + 1)) ∧
    (amedasCore env stations station start end_ "monthly" dir).fetchedUrls
      = (List.range' start.year (end_.year + 1 - start.year)).map
          (fun y => urlMonthly p b y) ∧
    (∀ d : Date, 1 ≤ d.month → d.month ≤ 12 →
      d.monthIdx / 12 = d.year ∧ d.monthIdx % 12 + 1 = d.month) := by
  refine ⟨?_, ?_, ?_⟩
  · rw [amedasCore_daily env stations station start end_ dir p b h]
    simp only [RunResult.fetchedUrls]
    rw [stepsEvents_urls _ _ (fun mi => dailyStep_urls env p b station dir mi)]
    rfl
  · rw [amedasCore_monthly env stations station start end_ dir p b h]
    simp only [RunResult.fetchedUrls]
    rw [stepsEvents_urls _ _ (fun y => monthlyStep_urls env p b station dir y)]
    rfl
  · intro d h1 h2
    unfold Date.monthIdx
    omega

/-- C8: an omitted `end` defaults to the JST day before now, an omitted
`start` defaults (via `end - timedelta(days=0)`) to `end` itself, a naive
datetime keeps its wall-clock date, an aware one is converted to the JST
instant first (in particular a JST-aware datetime keeps its date), and the
resolved dates are what the interval decomposition runs on. -/
theorem date_defaults_and_jst (nowJST endD d : Date) (minute : Nat)
    (off : Int) (env : Env) (stations : List StationRow) (station : String)
    (start? end? : Option PyDateTime) (g dir : String) :
    resolveEnd nowJST none = Date.fromRD (nowJST.toRD - 1) ∧
    resolveStart endD none = endD ∧
    toJSTDate ⟨d, minute, none⟩ = d ∧
    toJSTDate ⟨d, minute, some off⟩
      = Date.fromRD (Int.toNat
          (((d.toRD : Int) * 1440 + (minute : Int) - off + jstOffsetMin)
            / 1440)) ∧
    (minute < 1440 →
      toJSTDate ⟨d, minute, some jstOffsetMin⟩ = Date.fromRD d.toRD) ∧
    amedasFull env stations nowJST station start? end? g dir
      = amedas env stations station
          (resolveStart (resolveEnd nowJST end?) start?)
          (resolveEnd nowJST end?) g dir := by
  refine ⟨rfl, rfl, rfl, rfl, ?_, rfl⟩
  intro hm
  simp only [toJSTDate, jstOffsetMin]
  congr 1
  omega

/-- C9: a granularity outside `all`/`hourly`/`daily`/`monthly` raises
`Unsupported granularity`, but only after station resolution (a station
error is raised first), and in the unsupported case no fetch happens and
no file is written. -/
theorem unsupported_granularity_after_lookup (env : Env)
    (stations : List StationRow) (station : String) (start end_ : Date)
    (g dir : String) (h1 : g ≠ "all") (h2 : g ≠ "hourly") (h3 : g ≠ "daily")
    (h4 : g ≠ "monthly") :
    (∀ e, lookupStation stations station = .error e →
      amedas env stations station start end_ g dir = ⟨[], .error e⟩) ∧
    (∀ p b, lookupStation stations station = .ok (p, b) →
      amedas env stations station start end_ g dir
        = ⟨[], .error .unsupportedGranularity⟩) := by
  constructor
  · intro e he
    rw [amedas_not_all env stations station start end_ g dir h1,
      amedasCore_lookup_error env stations station start end_ g dir e he]
  · intro p b hok
    rw [amedas_not_all env stations station start end_ g dir h1]
    unfold amedasCore
    rw [hok]
    simp [h2, h3, h4]

/-- C10: every loaded station row has stripped `name`/`group_name` and a
`block_no` zero-padded to at least four characters, and therefore the
`block_no` any successful lookup hands to the URL builders has at least
four characters. -/
theorem station_table_normalized (raw : List RawStation) :
    (∀ r ∈ loadStations raw, 4 ≤ r.block_no.length ∧
      ∃ q ∈ raw, r = ⟨q.prec_no, zfill 4 q.block_no, pyStrip q.name,
        pyStrip q.group_name⟩) ∧
    (∀ station p b,
      lookupStation (loadStations raw) station = .ok (p, b) →
      4 ≤ b.length) := by
  constructor
  · intro r hr
    unfold loadStations at hr
    obtain ⟨q, hq, hrq⟩ := List.mem_map.1 hr
    exact ⟨hrq ▸ zfill_length 4 q.block_no, q, hq, hrq.symm⟩
  · intro station p b h
    obtain ⟨r, hmem, _hp, hb⟩ := lookupStation_ok_mem _ _ _ _ h
    unfold loadStations at hmem
    obtain ⟨q, _hq, hrq⟩ := List.mem_map.1 hmem
    rw [← hb, ← hrq]
    exact zfill_length 4 q.block_no

/-- C1: the lookup strips the optional `(region)` qualifier (present
exactly when the argument contains `(` and ends with `)`), resolves the
name to the `(prec_no, block_no)` pair of the first matching row of the
station table, and every URL fetched by any concrete granularity is built
from those two codes. -/
theorem amedas_station_resolution (env : Env) (stations : List StationRow)
    (station : String) (start end_ : Date) (dir : String) (p : Nat)
    (b : String) (h : lookupStation stations station = .ok (p, b)) :
    (∃ r, stations.find? (matchPred station) = some r
       ∧ r.prec_no = p ∧ r.block_no = b) ∧
    ((pyContains station '(' && pyEndsWith station ')') = false →
       splitStation station = (station, none)) ∧
    (∀ url ∈ (amedasCore env stations station start end_ "hourly"
        dir).fetchedUrls, ∃ day, url = urlHourly p b day) ∧
    (∀ url ∈ (amedasCore env stations station start end_ "daily"
        dir).fetchedUrls, ∃ y m, url = urlDaily p b y m) ∧
    (∀ url ∈ (amedasCore env stations station start end_ "monthly"
        dir).fetchedUrls, ∃ y, url = urlMonthly p b y) := by
  refine ⟨lookupStation_find? stations station p b h, ?_, ?_, ?_, ?_⟩
  · intro hn
    unfold splitStation
    rw [hn]
    rfl
  · rw [amedasCore_hourly env stations station start end_ dir p b h]
    simp only [RunResult.fetchedUrls]
    rw [stepsEvents_urls _ _ (fun n => hourlyStep_urls env p b station dir n)]
    intro url hu
    obtain ⟨n, _, rfl⟩ := List.mem_map.1 hu
    exact ⟨_, rfl⟩
  · rw [amedasCore_daily env stations station start end_ dir p b h]
    simp only [RunResult.fetchedUrls]
    rw [stepsEvents_urls _ _ (fun mi => dailyStep_urls env p b station dir mi)]
    intro url hu
    obtain ⟨mi, _, rfl⟩ := List.mem_map.1 hu
    exact ⟨_, _, rfl⟩
  · rw [amedasCore_monthly env stations station start end_ dir p b h]
    simp only [RunResult.fetchedUrls]
    rw [stepsEvents_urls _ _ (fun y => monthlyStep_urls env p b station dir y)]
    intro url hu
    obtain ⟨y, _, rfl⟩ := List.mem_map.1 hu
    exact ⟨_, rfl⟩

/-- C2 counterexample: with two station rows both named `X` in region `G`,
the qualified argument `X(G)` matches two rows, yet the lookup silently
returns the first row instead of raising the disambiguation `ValueError`,
and the subsequent loop does fetch. -/
theorem qualified_ambiguity_not_rejected :
    (([⟨11, "0001", "X", "G"⟩, ⟨22, "0002", "X", "G"⟩] :
        List StationRow).filter (matchPred "X(G)")).length = 2 ∧
    lookupStation [⟨11, "0001", "X", "G"⟩, ⟨22, "0002", "X", "G"⟩] "X(G)"
      = .ok (11, "0001") ∧
    (amedasCore ⟨fun _ => .err "down"⟩
        [⟨11, "0001", "X", "G"⟩, ⟨22, "0002", "X", "G"⟩] "X(G)"
        ⟨2016, 1, 1⟩ ⟨2016, 1, 1⟩ "monthly" "out").events
      = [.fetched (urlMonthly 11 "0001" 2016)] := by
  refine ⟨rfl, rfl, rfl⟩

/-- C2 (amended): a station argument matching no row raises
`Unknown station`, and an unqualified name matching several rows raises
the disambiguation error, with nothing fetched in either case; but when a
`(region)` qualifier is supplied and several rows match, no error is
raised and the first matching row is used. -/
theorem station_resolution_errors (env : Env) (stations : List StationRow)
    (station : String) (start end_ : Date) (g dir : String)
    (hg : g ≠ "all") :
    (stations.filter (matchPred station) = [] →
      amedas env stations station start end_ g dir
        = ⟨[], .error (.unknownStation station)⟩) ∧
    (groupTruthy (splitStation station).2 = false →
      1 < (stations.filter (matchPred station)).length →
      amedas env stations station start end_ g dir
        = ⟨[], .error .notUnique⟩) ∧
    (∀ r rest, groupTruthy (splitStation station).2 = true →
      stations.filter (matchPred station) = r :: rest →
      lookupStation stations station = .ok (r.prec_no, r.block_no)) := by
  refine ⟨?_, ?_, ?_⟩
  · intro hfil
    rw [amedas_not_all env stations station start end_ g dir hg,
      amedasCore_lookup_error env stations station start end_ g dir _
        (lookupStation_no_match stations station hfil)]
  · intro hq hlen
    rw [amedas_not_all env stations station start end_ g dir hg,
      amedasCore_lookup_error env stations station start end_ g dir _
        (lookupStation_ambiguous stations station hq hlen)]
  · intro r rest hq hfil
    exact lookupStation_qualified_first stations station r rest hq hfil

/-- C5: when the fetch of one step raises, that step contributes exactly
its fetch attempt — no retry, no write event, no frame — while every other
step of the loop still runs, before and after the failed one. -/
theorem failed_step_logged_and_skipped (env : Env)
    (stations : List StationRow) (station : String) (start end_ : Date)
    (dir : String) (p : Nat) (b msg : String)
    (h : lookupStation stations station = .ok (p, b)) :
    (∀ n, env.fetchPage (urlHourly p b (Date.fromRD n)) = .err msg →
      start.toRD ≤ n → n ≤ end_.toRD →
      (amedasCore env stations station start end_ "hourly" dir).events
        = stepsEvents (hourlyStep env p b station dir)
            (List.range' start.toRD (n - start.toRD))
          ++ Event.fetched (urlHourly p b (Date.fromRD n))
          :: stepsEvents (hourlyStep env p b station dir)
              (List.range' (n + 1) (end_.toRD - n)) ∧
      (amedasCore env stations station start end_ "hourly" dir).writtenFrames
        = stepsFrames (hourlyStep env p b station dir)
            (List.range' start.toRD (n - start.toRD))
          ++ stepsFrames (hourlyStep env p b station dir)
              (List.range' (n + 1) (end_.toRD - n))) ∧
    (∀ mi, env.fetchPage (urlDaily p b (mi / 12) (mi % 12 + 1)) = .err msg →
      start.monthIdx ≤ mi → mi ≤ end_.monthIdx →
      (amedasCore env stations station start end_ "daily" dir).events
        = stepsEvents (dailyStep env p b station dir)
            (List.range' start.monthIdx (mi - start.monthIdx))
          ++ Event.fetched (urlDaily p b (mi / 12) (mi % 12 + 1))
          :: stepsEvents (dailyStep env p b station dir)
              (List.range' (mi + 1) (end_.monthIdx - mi)) ∧
      (amedasCore env stations station start end_ "daily" dir).writtenFrames
        = stepsFrames (dailyStep env p b station dir)
            (List.range' start.monthIdx (mi - start.monthIdx))
          ++ stepsFrames (dailyStep env p b station dir)
              (List.range' (mi + 1) (end_.monthIdx - mi))) ∧
    (∀ y, env.fetchPage (urlMonthly p b y) = .err msg →
      start.year ≤ y → y ≤ end_.year →
      (amedasCore env stations station start end_ "monthly" dir).events
        = stepsEvents (monthlyStep env p b station dir)
            (List.range' start.year (y - start.year))
          ++ Event.fetched (urlMonthly p b y)
          :: stepsEvents (monthlyStep env p b station dir)
              (List.range' (y + 1) (end_.year - y)) ∧
      (amedasCore env stations station start end_ "monthly" dir).writtenFrames
        = stepsFrames (monthlyStep env p b station dir)
            (List.range' start.year (y - start.year))
          ++ stepsFrames (monthlyStep env p b station dir)
              (List.range' (y + 1) (end_.year - y))) := by
  refine ⟨?_, ?_, ?_⟩
  · intro n hf h1 h2
    rw [amedasCore_hourly env stations station start end_ dir p b h]
    have hsplit := inclRange_split start.toRD n end_.toRD h1 h2
    constructor
    · show stepsEvents _ _ = _
      rw [hsplit, stepsEvents_append, stepsEvents_cons,
        hourlyStep_err env p b station dir n msg hf]
      rfl
    · show RunResult.writtenFrames _ = _
      simp only [RunResult.writtenFrames]
      rw [stepsEvents_writes _
        (fun k => hourlyStep_writes env p b station dir k), hsplit,
        stepsFrames_append, stepsFrames_cons,
        hourlyStep_err env p b station dir n msg hf]
      rfl
  · intro mi hf h1 h2
    rw [amedasCore_daily env stations station start end_ dir p b h]
    have hsplit := inclRange_split start.monthIdx mi end_.monthIdx h1 h2
    constructor
    · show stepsEvents _ _ = _
      rw [hsplit, stepsEvents_append, stepsEvents_cons,
        dailyStep_err env p b station dir mi msg hf]
      rfl
    · show RunResult.writtenFrames _ = _
      simp only [RunResult.writtenFrames]
      rw [stepsEvents_writes _
        (fun k => dailyStep_writes env p b station dir k), hsplit,
        stepsFrames_append, stepsFrames_cons,
        dailyStep_err env p b station dir mi msg hf]
      rfl
  · intro y hf h1 h2
    rw [amedasCore_monthly env stations station start end_ dir p b h]
    have hsplit := inclRange_split start.year y end_.year h1 h2
    constructor
    · show stepsEvents _ _ = _
      rw [hsplit, stepsEvents_append, stepsEvents_cons,
        monthlyStep_err env p b station dir y msg hf]
      rfl
    · show RunResult.writtenFrames _ = _
      simp only [RunResult.writtenFrames]
      rw [stepsEvents_writes _
        (fun k => monthlyStep_writes env p b station dir k), hsplit,
        stepsFrames_append, stepsFrames_cons,
        monthlyStep_err env p b station dir y msg hf]
      rfl

/-- C6 (code bug): for each concrete granularity the returned frame is
the concatenation, in fetch order, of exactly the frames written during
the run (the empty frame when none was); but the `"all"` branch —
documented to download all three granularities and concatenate the
results — always raises `AttributeError` before any fetch, because its
recursive call passes the resolved `datetime.date` objects back into the
`end.tzinfo` normalization of line 108. -/
theorem all_granularity_crashes (env : Env) (stations : List StationRow)
    (station : String) (start end_ : Date) (dir : String) :
    amedas env stations station start end_ "all" dir
      = ⟨[], .error .attributeError⟩ ∧
    (∀ g ∈ (["hourly", "daily", "monthly"] : List String), ∀ t,
      (amedasCore env stations station start end_ g dir).result = .ok t →
      t.rows = (((amedasCore env stations station start end_ g
          dir).writtenFrames).map Table.rows).flatten) := by
  constructor
  · rfl
  · intro g hg t hok
    rcases hl : lookupStation stations station with e | ⟨pp, bb⟩
    · rw [amedasCore_lookup_error env stations station start end_ g dir e hl]
        at hok
      exact absurd hok (by simp)
    · simp only [List.mem_cons, List.not_mem_nil, or_false] at hg
      rcases hg with rfl | rfl | rfl
      · rw [amedasCore_hourly env stations station start end_ dir pp bb hl]
          at hok ⊢
        rw [concat_or_empty] at hok
        obtain rfl : _ = t := Except.ok.inj hok
        simp only [RunResult.writtenFrames]
        rw [stepsEvents_writes _
          (fun k => hourlyStep_writes env pp bb station dir k)]
        rfl
      · rw [amedasCore_daily env stations station start end_ dir pp bb hl]
          at hok ⊢
        rw [concat_or_empty] at hok
        obtain rfl : _ = t := Except.ok.inj hok
        simp only [RunResult.writtenFrames]
        rw [stepsEvents_writes _
          (fun k => dailyStep_writes env pp bb station dir k)]
        rfl
      · rw [amedasCore_monthly env stations station start end_ dir pp bb hl]
          at hok ⊢
        rw [concat_or_empty] at hok
        obtain rfl : _ = t := Except.ok.inj hok
        simp only [RunResult.writtenFrames]
        rw [stepsEvents_writes _
          (fun k => monthlyStep_writes env pp bb station dir k)]
        rfl

/-- C7: every successfully fetched step writes exactly one CSV file, at
the path determined by `out_dir`, the station string and the step's date
(`out_dir/YYYY/MM/station_YYYYMMDD.csv` hourly,
`out_dir/YYYY/station_YYYYMM.csv` daily, `out_dir/station_YYYY.csv`
monthly), whose frame is the post-processed first table of the fetched
page; and conversely every write event of a run comes from an in-range
step with that path and content. -/
theorem each_successful_step_writes_one_file (env : Env)
    (stations : List StationRow) (station : String) (start end_ : Date)
    (dir : String) (p : Nat) (b : String)
    (h : lookupStation stations station = .ok (p, b)) :
    (∀ n, start.toRD ≤ n → n ≤ end_.toRD →
      ∀ t rest,
        env.fetchPage (urlHourly p b (Date.fromRD n)) = .ok (t :: rest) →
      (amedasCore env stations station start end_ "hourly" dir).events
        = stepsEvents (hourlyStep env p b station dir)
            (List.range' start.toRD (n - start.toRD))
          ++ Event.fetched (urlHourly p b (Date.fromRD n))
          :: Event.wrote (hourlyPath dir station (Date.fromRD n))
               (hourlyTransform (Date.fromRD n) t)
          :: stepsEvents (hourlyStep env p b station dir)
              (List.range' (n + 1) (end_.toRD - n))) ∧
    (∀ mi, start.monthIdx ≤ mi → mi ≤ end_.monthIdx →
      ∀ t rest,
        env.fetchPage (urlDaily p b (mi / 12) (mi % 12 + 1))
          = .ok (t :: rest) →
      (amedasCore env stations station start end_ "daily" dir).events
        = stepsEvents (dailyStep env p b station dir)
            (List.range' start.monthIdx (mi - start.monthIdx))
          ++ Event.fetched (urlDaily p b (mi / 12) (mi % 12 + 1))
          :: Event.wrote (dailyPath dir station (mi / 12) (mi % 12 + 1))
               (dailyTransform (mi / 12) (mi % 12 + 1) t)
          :: stepsEvents (dailyStep env p b station dir)
              (List.range' (mi + 1) (end_.monthIdx - mi))) ∧
    (∀ y, start.year ≤ y → y ≤ end_.year →
      ∀ t rest, env.fetchPage (urlMonthly p b y) = .ok (t :: rest) →
      (amedasCore env stations station start end_ "monthly" dir).events
        = stepsEvents (monthlyStep env p b station dir)
            (List.range' start.year (y - start.year))
          ++ Event.fetched (urlMonthly p b y)
          :: Event.wrote (monthlyPath dir station y) (dropAllNA t)
          :: stepsEvents (monthlyStep env p b station dir)
              (List.range' (y + 1) (end_.year - y))) ∧
    (∀ path df, Event.wrote path df
        ∈ (amedasCore env stations station start end_ "hourly" dir).events →
      ∃ n, start.toRD ≤ n ∧ n ≤ end_.toRD ∧
        path = hourlyPath dir station (Date.fromRD n) ∧
        ∃ t rest,
          env.fetchPage (urlHourly p b (Date.fromRD n)) = .ok (t :: rest)
          ∧ df = hourlyTransform (Date.fromRD n) t) ∧
    (∀ path df, Event.wrote path df
        ∈ (amedasCore env stations station start end_ "daily" dir).events →
      ∃ mi, start.monthIdx ≤ mi ∧ mi ≤ end_.monthIdx ∧
        path = dailyPath dir station (mi / 12) (mi % 12 + 1) ∧
        ∃ t rest,
          env.fetchPage (urlDaily p b (mi / 12) (mi % 12 + 1)) = .ok (t :: rest)
          ∧ df = dailyTransform (mi / 12) (mi % 12 + 1) t) ∧
    (∀ path df, Event.wrote path df
        ∈ (amedasCore env stations station start end_ "monthly" dir).events →
      ∃ y, start.year ≤ y ∧ y ≤ end_.year ∧
        path = monthlyPath dir station y ∧
        ∃ t rest, env.fetchPage (urlMonthly p b y) = .ok (t :: rest)
          ∧ df = dropAllNA t) := by
  refine ⟨?_, ?_, ?_, ?_, ?_, ?_⟩
  · intro n h1 h2 t rest hf
    rw [amedasCore_hourly env stations station start end_ dir p b h]
    show stepsEvents _ _ = _
    rw [inclRange_split start.toRD n end_.toRD h1 h2, stepsEvents_append,
      stepsEvents_cons, hourlyStep_ok env p b station dir n t rest hf]
    rfl
  · intro mi h1 h2 t rest hf
    rw [amedasCore_daily env stations station start end_ dir p b h]
    show stepsEvents _ _ = _
    rw [inclRange_split start.monthIdx mi end_.monthIdx h1 h2,
      stepsEvents_append, stepsEvents_cons,
      dailyStep_ok env p b station dir mi t rest hf]
    rfl
  · intro y h1 h2 t rest hf
    rw [amedasCore_monthly env stations station start end_ dir p b h]
    show stepsEvents _ _ = _
    rw [inclRange_split start.year y end_.year h1 h2, stepsEvents_append,
      stepsEvents_cons, monthlyStep_ok env p b station dir y t rest hf]
    rfl
  · intro path df hmem
    rw [amedasCore_hourly env stations station start end_ dir p b h] at hmem
    have hmem2 : Event.wrote path df
        ∈ stepsEvents (hourlyStep env p b station dir)
            (inclRange start.toRD end_.toRD) := hmem
    obtain ⟨n, hn, he⟩ := (mem_stepsEvents _ _ _).1 hmem2
    have hb : start.toRD ≤ n ∧ n < start.toRD + (end_.toRD + 1 - start.toRD) :=
      List.mem_range'_1.1 hn
    obtain ⟨hp, t, rest, hf, hd⟩ :=
      hourlyStep_wrote_shape env p b station dir n path df he
    exact ⟨n, hb.1, by omega, hp, t, rest, hf, hd⟩
  · intro path df hmem
    rw [amedasCore_daily env stations station start end_ dir p b h] at hmem
    have hmem2 : Event.wrote path df
        ∈ stepsEvents (dailyStep env p b station dir)
            (inclRange start.monthIdx end_.monthIdx) := hmem
    obtain ⟨mi, hn, he⟩ := (mem_stepsEvents _ _ _).1 hmem2
    have hb : start.monthIdx ≤ mi
        ∧ mi < start.monthIdx + (end_.monthIdx + 1 - start.monthIdx) :=
      List.mem_range'_1.1 hn
    obtain ⟨hp, t, rest, hf, hd⟩ :=
      dailyStep_wrote_shape env p b station dir mi path df he
    exact ⟨mi, hb.1, by omega, hp, t, rest, hf, hd⟩
  · intro path df hmem
    rw [amedasCore_monthly env stations station start end_ dir p b h] at hmem
    have hmem2 : Event.wrote path df
        ∈ stepsEvents (monthlyStep env p b station dir)
            (inclRange start.year end_.year) := hmem
    obtain ⟨y, hn, he⟩ := (mem_stepsEvents _ _ _).1 hmem2
    have hb : start.year ≤ y ∧ y < start.year + (end_.year + 1 - start.year) :=
      List.mem_range'_1.1 hn
    obtain ⟨hp, t, rest, hf, hd⟩ :=
      monthlyStep_wrote_shape env p b station dir y path df he
    exact ⟨y, hb.1, by omega, hp, t, rest, hf, hd⟩

/-! ## Concrete fixtures and witnesses -/

/-- A small station table in the loaded (already normalized) form. -/
def demoStations : List StationRow :=
  [⟨44, "0047", "Tokyo", "Kanto"⟩, ⟨11, "0001", "X", "G"⟩,
   ⟨22, "0002", "X", "H"⟩]

/-- The raw form of a station row before `_load_stations` cleanup. -/
def demoRaw : List RawStation := [⟨44, "47", " Tokyo ", " Kanto "⟩]

/-- A parsed page with one NA row. -/
def demoTable : Table :=
  ⟨[[some "1", some "2"], [none, none], [some "3", none]]⟩

/-- An always-successful network. -/
def demoEnv : Env := ⟨fun _ => .ok [demoTable]⟩

/-- A network that raises on one URL and succeeds elsewhere. -/
def failEnv (badUrl : String) : Env :=
  ⟨fun u => if u = badUrl then .err "boom" else .ok [demoTable]⟩

/-- The failing network used by the failed-step witness. -/
def c5env : Env := failEnv (urlHourly 44 "0047" ⟨2016, 1, 31⟩)

/-- Calendar sanity of the ordinal conversions at concrete dates. -/
theorem date_roundtrip_examples :
    Date.fromRD (Date.toRD ⟨2016, 1, 1⟩) = ⟨2016, 1, 1⟩ ∧
    Date.fromRD (Date.toRD ⟨2020, 2, 29⟩) = ⟨2020, 2, 29⟩ ∧
    Date.toRD ⟨2016, 3, 1⟩ = Date.toRD ⟨2016, 2, 29⟩ + 1 ∧
    Date.toRD ⟨2016, 2, 29⟩ = Date.toRD ⟨2016, 2, 28⟩ + 1 ∧
    Date.toRD ⟨2017, 1, 1⟩ = Date.toRD ⟨2016, 12, 31⟩ + 1 ∧
    Date.toRD ⟨2017, 3, 1⟩ = Date.toRD ⟨2017, 2, 28⟩ + 1 ∧
    Date.toRD ⟨2100, 3, 1⟩ = Date.toRD ⟨2100, 2, 28⟩ + 1 ∧
    Date.fromRD (Date.toRD ⟨2016, 1, 1⟩ - 1) = ⟨2015, 12, 31⟩ := by
  decide

theorem amedas_station_resolution_witness :
    ∃ r, demoStations.find? (matchPred "X(G)") = some r
      ∧ r.prec_no = 11 ∧ r.block_no = "0001" :=
  (amedas_station_resolution demoEnv demoStations "X(G)" ⟨2016, 1, 1⟩
    ⟨2016, 1, 2⟩ "out" 11 "0001" rfl).1

theorem station_resolution_errors_witness :
    amedas demoEnv demoStations "Nagoya" ⟨2016, 1, 1⟩ ⟨2016, 1, 2⟩ "hourly"
        "out"
      = ⟨[], .error (.unknownStation "Nagoya")⟩ ∧
    amedas demoEnv demoStations "X" ⟨2016, 1, 1⟩ ⟨2016, 1, 2⟩ "hourly" "out"
      = ⟨[], .error .notUnique⟩ := by
  constructor
  · exact (station_resolution_errors demoEnv demoStations "Nagoya"
      ⟨2016, 1, 1⟩ ⟨2016, 1, 2⟩ "hourly" "out" (by decide)).1 rfl
  · exact (station_resolution_errors demoEnv demoStations "X"
      ⟨2016, 1, 1⟩ ⟨2016, 1, 2⟩ "hourly" "out" (by decide)).2.1 rfl
      (by decide)

theorem hourly_one_fetch_per_day_witness :
    (amedasCore demoEnv demoStations "Tokyo" ⟨2016, 1, 30⟩ ⟨2016, 2, 1⟩
        "hourly" "out").fetchedUrls
      = [urlHourly 44 "0047" ⟨2016, 1, 30⟩, urlHourly 44 "0047" ⟨2016, 1, 31⟩,
         urlHourly 44 "0047" ⟨2016, 2, 1⟩] := by
  have h := hourly_one_fetch_per_day demoEnv demoStations "Tokyo"
    ⟨2016, 1, 30⟩ ⟨2016, 2, 1⟩ "out" 44 "0047" rfl
  rw [h.1]
  rfl

theorem daily_monthly_fetch_ranges_witness :
    (amedasCore demoEnv demoStations "Tokyo" ⟨2016, 11, 5⟩ ⟨2017, 2, 3⟩
        "daily" "out").fetchedUrls
      = [urlDaily 44 "0047" 2016 11, urlDaily 44 "0047" 2016 12,
         urlDaily 44 "0047" 2017 1, urlDaily 44 "0047" 2017 2] ∧
    (amedasCore demoEnv demoStations "Tokyo" ⟨2016, 11, 5⟩ ⟨2017, 2, 3⟩
        "monthly" "out").fetchedUrls
      = [urlMonthly 44 "0047" 2016, urlMonthly 44 "0047" 2017] := by
  have h := daily_monthly_fetch_ranges demoEnv demoStations "Tokyo"
    ⟨2016, 11, 5⟩ ⟨2017, 2, 3⟩ "out" 44 "0047" rfl
  exact ⟨by rw [h.1]; rfl, by rw [h.2.1]; rfl⟩

theorem failed_step_logged_and_skipped_witness :
    (amedasCore c5env demoStations "Tokyo" ⟨2016, 1, 30⟩ ⟨2016, 2, 1⟩
        "hourly" "out").events
      = [Event.fetched (urlHourly 44 "0047" ⟨2016, 1, 30⟩),
         Event.wrote (hourlyPath "out" "Tokyo" ⟨2016, 1, 30⟩)
           (hourlyTransform ⟨2016, 1, 30⟩ demoTable),
         Event.fetched (urlHourly 44 "0047" ⟨2016, 1, 31⟩),
         Event.fetched (urlHourly 44 "0047" ⟨2016, 2, 1⟩),
         Event.wrote (hourlyPath "out" "Tokyo" ⟨2016, 2, 1⟩)
           (hourlyTransform ⟨2016, 2, 1⟩ demoTable)] := by
  have h := (failed_step_logged_and_skipped c5env demoStations "Tokyo"
      ⟨2016, 1, 30⟩ ⟨2016, 2, 1⟩ "out" 44 "0047" "boom" rfl).1
      (Date.toRD ⟨2016, 1, 31⟩) rfl (by decide) (by decide)
  rw [h.1]
  rfl

theorem all_granularity_crashes_witness :
    amedas demoEnv demoStations "Tokyo" ⟨2016, 1, 1⟩ ⟨2016, 1, 2⟩ "all" "out"
      = ⟨[], .error .attributeError⟩ ∧
    (pdConcat [hourlyTransform ⟨2016, 1, 1⟩ demoTable,
               hourlyTransform ⟨2016, 1, 2⟩ demoTable]).rows
      = (((amedasCore demoEnv demoStations "Tokyo" ⟨2016, 1, 1⟩ ⟨2016, 1, 2⟩
            "hourly" "out").writtenFrames).map Table.rows).flatten := by
  have h := all_granularity_crashes demoEnv demoStations "Tokyo"
    ⟨2016, 1, 1⟩ ⟨2016, 1, 2⟩ "out"
  refine ⟨h.1, ?_⟩
  have hcore := amedasCore_hourly demoEnv demoStations "Tokyo" ⟨2016, 1, 1⟩
    ⟨2016, 1, 2⟩ "out" 44 "0047" rfl
  refine h.2 "hourly" (by decide) _ ?_
  rw [hcore]
  rfl

theorem each_successful_step_writes_one_file_witness :
    (amedasCore demoEnv demoStations "Tokyo" ⟨2016, 1, 1⟩ ⟨2016, 1, 1⟩
        "monthly" "out").events
      = [Event.fetched (urlMonthly 44 "0047" 2016),
         Event.wrote (monthlyPath "out" "Tokyo" 2016)
           (dropAllNA demoTable)] := by
  have h := (each_successful_step_writes_one_file demoEnv demoStations
      "Tokyo" ⟨2016, 1, 1⟩ ⟨2016, 1, 1⟩ "out" 44 "0047" rfl).2.2.1 2016
      (by decide) (by decide) demoTable [] rfl
  rw [h]
  rfl

theorem date_defaults_and_jst_witness :
    toJSTDate ⟨⟨2016, 1, 1⟩, 100, some jstOffsetMin⟩
      = Date.fromRD (Date.toRD ⟨2016, 1, 1⟩) ∧
    resolveEnd ⟨2016, 1, 1⟩ none
      = Date.fromRD (Date.toRD ⟨2016, 1, 1⟩ - 1) := by
  have h := date_defaults_and_jst ⟨2016, 1, 1⟩ ⟨2016, 1, 1⟩ ⟨2016, 1, 1⟩ 100
    jstOffsetMin demoEnv demoStations "Tokyo" none none "hourly" "out"
  exact ⟨h.2.2.2.2.1 (by decide), h.1⟩

theorem unsupported_granularity_after_lookup_witness :
    amedas demoEnv demoStations "Tokyo" ⟨2016, 1, 1⟩ ⟨2016, 1, 2⟩ "weekly"
        "out"
      = ⟨[], .error .unsupportedGranularity⟩ :=
  (unsupported_granularity_after_lookup demoEnv demoStations "Tokyo"
    ⟨2016, 1, 1⟩ ⟨2016, 1, 2⟩ "weekly" "out" (by decide) (by decide)
    (by decide) (by decide)).2 44 "0047" rfl

theorem station_table_normalized_witness :
    4 ≤ (zfill 4 "47").length :=
  (station_table_normalized demoRaw).2 "Tokyo" 44 (zfill 4 "47") rfl
